import Mathlib

/-!
Verification of the test-runner-mcp server (Rust, `src/test_runner.rs`,
`src/cypress.rs`, `src/main.rs`) against its natural-language specification.

The source is shallowly embedded: Rust strings become Lean `String`
(byte-level operations are modelled on `String.data : List Char`, exact for
the ASCII patterns the code searches for), `Result<T, String>` becomes
`Except String T`, and `i32` line numbers become `Int`.  The foreign calls
`serde_json::from_str` and `serde_json::to_string_pretty` are modelled as
explicit function parameters, since the claims quantify over their outcomes
rather than their behaviour.
-/

set_option autoImplicit false

deriving instance DecidableEq for Except

namespace TRMcp

/-- `leadsWith pat l` is true when `pat` is an initial segment of `l`.
Models the prefix comparison underlying Rust `str::contains`. -/
def leadsWith : List Char → List Char → Bool
  | [], _ => true
  | _ :: _, [] => false
  | p :: ps, c :: cs => p == c && leadsWith ps cs

/-- `hasSub pat l` is true when `pat` occurs contiguously inside `l`.
Models Rust `str::contains` for a string pattern. -/
def hasSub (pat : List Char) : List Char → Bool
  | [] => leadsWith pat []
  | c :: cs => leadsWith pat (c :: cs) || hasSub pat cs

/-- Rust `path.contains("...")` on strings. -/
def strContains (s pat : String) : Bool :=
  hasSub pat.data s.data

/-- Rust `path.contains(c)` for a single character. -/
def strContainsChar (s : String) (c : Char) : Bool :=
  s.data.contains c

/-- Rust `str::ends_with` for a string pattern. -/
def strEndsWith (s suf : String) : Bool :=
  leadsWith suf.data.reverse s.data.reverse

/-- Rust `path.strip_prefix("./").unwrap_or(path)`: removes one leading
`"./"` when present, otherwise returns the string unchanged. -/
def stripDotSlash (s : String) : String :=
  match s.data with
  | '.' :: '/' :: rest => String.mk rest
  | _ => s

/-- Rust `char::is_whitespace`: the Unicode White_Space property — U+0009
through U+000D (tab, line feed, vertical tab, form feed, carriage return),
space, U+0085, U+00A0, U+1680, U+2000 through U+200A, U+2028, U+2029,
U+202F, U+205F and U+3000.  Wider than Lean `Char.isWhitespace`, which
covers only space, tab, CR and LF. -/
def isRustWhitespace (c : Char) : Bool :=
  (0x09 ≤ c.toNat && c.toNat ≤ 0x0D) || c.toNat == 0x20 || c.toNat == 0x85 ||
    c.toNat == 0xA0 || c.toNat == 0x1680 ||
    (0x2000 ≤ c.toNat && c.toNat ≤ 0x200A) ||
    c.toNat == 0x2028 || c.toNat == 0x2029 || c.toNat == 0x202F ||
    c.toNat == 0x205F || c.toNat == 0x3000

/-- Accumulator-passing worker for `splitWs`; `acc` holds the characters of
the word in progress, in reverse. -/
def splitWsAux : List Char → List Char → List String
  | [], acc => if acc.isEmpty then [] else [String.mk acc.reverse]
  | c :: cs, acc =>
    if isRustWhitespace c then
      if acc.isEmpty then splitWsAux cs []
      else String.mk acc.reverse :: splitWsAux cs []
    else
      splitWsAux cs (c :: acc)

/-- Rust `str::split_whitespace`: maximal runs of characters without the
Unicode White_Space property, in order; runs of whitespace produce
nothing. -/
def splitWs (l : List Char) : List String :=
  splitWsAux l []

/-- The whitespace split of a string, as in `self.rspec_command.split_whitespace()`. -/
def splitWhitespace (s : String) : List String :=
  splitWs s.data

/-- `ParsedFilePath` from `test_runner.rs`: a validated file path together
with its (possibly empty) list of line numbers. -/
structure ParsedFilePath where
  file_path : String
  line_numbers : List Int
  deriving Repr, DecidableEq

namespace ParsedFilePath

/-- `ParsedFilePath::validate_file_path` from `test_runner.rs`: RSpec path
validation.  Checks, in order: dangerous characters (NUL, line feed), the
traversal substring `"../"` on the raw path, then — on the path with one
leading `"./"` stripped — the `"_spec.rb"` suffix and the bare-suffix case. -/
def validate_file_path (path : String) : Except String Unit :=
  if strContainsChar path '\x00' || strContainsChar path '\n' then
    .error "Invalid characters in file path"
  else if strContains path "../" then
    .error "Path traversal not allowed"
  else
    let clean_path := stripDotSlash path
    if !strEndsWith clean_path "_spec.rb" then
      .error "File must be an RSpec test file (*_spec.rb)"
    else if clean_path = "_spec.rb" then
      .error "Invalid file path format"
    else
      .ok ()

/-- `ParsedFilePath::validate_cypress_file_path` from `test_runner.rs`:
Cypress path validation.  Same character and traversal checks as the RSpec
validator, then the `".cy.js"` / `".cy.ts"` suffix and bare-suffix cases. -/
def validate_cypress_file_path (path : String) : Except String Unit :=
  if strContainsChar path '\x00' || strContainsChar path '\n' then
    .error "Invalid characters in file path"
  else if strContains path "../" then
    .error "Path traversal not allowed"
  else
    let clean_path := stripDotSlash path
    if !strEndsWith clean_path ".cy.js" && !strEndsWith clean_path ".cy.ts" then
      .error "File must be a Cypress test file (*.cy.js or *.cy.ts)"
    else if clean_path = ".cy.js" ∨ clean_path = ".cy.ts" then
      .error "Invalid file path format"
    else
      .ok ()

/-- The line-number loop of `ParsedFilePath::from_args`: returns the error
for the first non-positive element, `Ok(())` when all are positive. -/
def check_line_numbers : List Int → Except String Unit
  | [] => .ok ()
  | n :: rest =>
    if n ≤ 0 then
      .error ("Line numbers must be positive integers, got: " ++ toString n)
    else
      check_line_numbers rest

/-- `ParsedFilePath::from_args` from `test_runner.rs`: empty-path check,
path validation, then line-number validation. -/
def from_args (file_path : String) (line_numbers : List Int) :
    Except String ParsedFilePath :=
  if file_path = "" then
    .error "Empty file path"
  else
    match validate_file_path file_path with
    | .error e => .error e
    | .ok () =>
      match check_line_numbers line_numbers with
      | .error e => .error e
      | .ok () => .ok { file_path := file_path, line_numbers := line_numbers }

/-- `ParsedFilePath::from_cypress_args` from `test_runner.rs`. -/
def from_cypress_args (file_path : String) : Except String ParsedFilePath :=
  if file_path = "" then
    .error "Empty file path"
  else
    match validate_cypress_file_path file_path with
    | .error e => .error e
    | .ok () => .ok { file_path := file_path, line_numbers := [] }

end ParsedFilePath

/-! ## Cypress report data model

`test_runner.rs` and `cypress.rs` declare these five structures with
identical fields; one Lean copy serves both.  Rust `u32` counters become
`Nat` (they are only carried, never computed with). -/

/-- `CypressStats` from `test_runner.rs` / `cypress.rs`. -/
structure CypressStats where
  suites : Nat
  tests : Nat
  passes : Nat
  pending : Nat
  failures : Nat
  start : String
  «end» : String
  duration : Nat
  deriving Repr, DecidableEq

/-- `CypressCodeFrame` from `test_runner.rs` / `cypress.rs`. -/
structure CypressCodeFrame where
  line : Nat
  column : Nat
  original_file : String
  relative_file : String
  absolute_file : String
  frame : String
  language : String
  deriving Repr, DecidableEq

/-- `CypressError` from `test_runner.rs` / `cypress.rs`. -/
structure CypressError where
  message : String
  name : String
  code_frame : Option CypressCodeFrame
  deriving Repr, DecidableEq

/-- `CypressTest` from `test_runner.rs` / `cypress.rs`. -/
structure CypressTest where
  title : String
  full_title : String
  file : Option String
  duration : Option Nat
  current_retry : Nat
  err : Option CypressError
  deriving Repr, DecidableEq

/-- `CypressResults` from `test_runner.rs` / `cypress.rs`. -/
structure CypressResults where
  stats : CypressStats
  tests : List CypressTest
  pending : List CypressTest
  failures : List CypressTest
  passes : List CypressTest
  deriving Repr, DecidableEq

/-- Rust `output.find('\x7b')` followed by the slice `output[start_pos..]`:
`some` of the suffix beginning at the first opening brace, `none` when the
string holds no opening brace. -/
def braceSuffix : List Char → Option (List Char)
  | [] => none
  | c :: cs => if c = '\x7b' then some (c :: cs) else braceSuffix cs

/-- Outcome of one tool invocation: `Ok(CallToolResult::success(text))`
versus `Err(McpError)` in the Rust handlers. -/
inductive ToolOutcome where
  | success (text : String)
  | failure (message : String)
  deriving Repr, DecidableEq

namespace TestRunner

/-- `TestRunner::extract_json_from_cypress_output` from `test_runner.rs`. -/
def extract_json_from_cypress_output (output : String) : Except String String :=
  match braceSuffix output.data with
  | some json_portion => .ok (String.mk json_portion)
  | none => .error "No JSON found in Cypress output"

/-- `TestRunner::parse_cypress_results` from `test_runner.rs`.  The foreign
call `serde_json::from_str` is the parameter `from_str`; the function wraps
its error text exactly as the source does. -/
def parse_cypress_results (from_str : String → Except String CypressResults)
    (json_str : String) : Except String CypressResults :=
  match from_str json_str with
  | .ok results => .ok results
  | .error e => .error ("Failed to parse Cypress JSON: " ++ e)

/-- The `filter_test` closure inside `TestRunner::filter_cypress_results`. -/
def filter_test (test : CypressTest) : CypressTest :=
  { title := test.title
    full_title := test.full_title
    file := test.file
    duration := test.duration
    current_retry := test.current_retry
    err := test.err.map (fun err =>
      { message := err.message
        name := err.name
        code_frame := err.code_frame }) }

/-- `TestRunner::filter_cypress_results` from `test_runner.rs`. -/
def filter_cypress_results (results : CypressResults) : CypressResults :=
  { stats := results.stats
    tests := results.tests.map filter_test
    pending := results.pending.map filter_test
    failures := results.failures.map filter_test
    passes := results.passes.map filter_test }

/-- The trailing-argument construction in `TestRunner::run_rspec`: the file
path alone, or the path and the line numbers joined with colons. -/
def build_rspec_arg (parsed_file : ParsedFilePath) : String :=
  if parsed_file.line_numbers.isEmpty then
    parsed_file.file_path
  else
    parsed_file.file_path ++ ":" ++
      String.intercalate ":" (parsed_file.line_numbers.map (fun n => toString n))

/-- The pre-spawn portion of `TestRunner::run_rspec`: validation, then the
whitespace split of the configured command and the unguarded indexing
`command_parts[0]`.  The value `Except.ok none` marks the configuration on
which the Rust code panics (indexing position 0 of an empty vector);
`Except.ok (some (program, args))` is the argv the source builds. -/
def run_rspec_build (rspec_command : String) (file : String)
    (line_numbers : List Int) : Except String (Option (String × List String)) :=
  match ParsedFilePath.from_args file line_numbers with
  | .error e => .error ("Invalid parameters: " ++ e)
  | .ok parsed_file =>
    match splitWhitespace rspec_command with
    | [] => .ok none
    | program :: rest => .ok (some (program, rest ++ [build_rspec_arg parsed_file]))

/-- The single shell string `format!("\x7b\x7d \x7b\x7d", self.cypress_command,
parsed_file.file_path)` handed to `sh -c` in `TestRunner::run_cypress`. -/
def build_cypress_shell_string (cypress_command file_path : String) : String :=
  cypress_command ++ " " ++ file_path

/-- The post-capture portion of `TestRunner::run_cypress`: the nested match
on extract / parse / filter / serialize over the captured stdout, stderr and
exit code.  `serde_json::from_str` and `serde_json::to_string_pretty` are
the parameters `from_str` and `to_string_pretty`; each branch builds the
exact report text of the corresponding Rust `format!`. -/
def run_cypress_post (file_path : String) (status : Int) (stdout stderr : String)
    (from_str : String → Except String CypressResults)
    (to_string_pretty : CypressResults → Except String String) : ToolOutcome :=
  match extract_json_from_cypress_output stdout with
  | .ok json_str =>
    match parse_cypress_results from_str json_str with
    | .ok results =>
      let filtered_results := filter_cypress_results results
      match to_string_pretty filtered_results with
      | .ok clean_json =>
        .success ("Test Results for: " ++ file_path ++ "\nExit Code: " ++
          toString status ++ "\n\nFiltered Results:\n" ++ clean_json)
      | .error e =>
        .success ("Test Results for: " ++ file_path ++
          " (JSON serialization failed: " ++ e ++ ")\nExit Code: " ++
          toString status ++ "\n\nOutput:\n" ++ stdout ++ "\n\nErrors:\n" ++ stderr)
    | .error parse_error =>
      .success ("Test Results for: " ++ file_path ++ " (JSON parsing failed: " ++
        parse_error ++ ")\nExit Code: " ++ toString status ++ "\n\nOutput:\n" ++
        stdout ++ "\n\nErrors:\n" ++ stderr)
  | .error extract_error =>
    .success ("Test Results for: " ++ file_path ++ " (JSON extraction failed: " ++
      extract_error ++ ")\nExit Code: " ++ toString status ++ "\n\nOutput:\n" ++
      stdout ++ "\n\nErrors:\n" ++ stderr)

end TestRunner

namespace Cypress

/-- `extract_json_from_output` from `cypress.rs` (free function). -/
def extract_json_from_output (output : String) : Except String String :=
  match braceSuffix output.data with
  | some json_portion => .ok (String.mk json_portion)
  | none => .error "No JSON found in Cypress output"

/-- `parse_results` from `cypress.rs` (free function); `serde_json::from_str`
is the parameter `from_str`. -/
def parse_results (from_str : String → Except String CypressResults)
    (json_str : String) : Except String CypressResults :=
  match from_str json_str with
  | .ok results => .ok results
  | .error e => .error ("Failed to parse Cypress JSON: " ++ e)

/-- The `filter_test` closure inside `filter_results` in `cypress.rs`. -/
def filter_test (test : CypressTest) : CypressTest :=
  { title := test.title
    full_title := test.full_title
    file := test.file
    duration := test.duration
    current_retry := test.current_retry
    err := test.err.map (fun err =>
      { message := err.message
        name := err.name
        code_frame := err.code_frame }) }

/-- `filter_results` from `cypress.rs` (free function). -/
def filter_results (results : CypressResults) : CypressResults :=
  { stats := results.stats
    tests := results.tests.map filter_test
    pending := results.pending.map filter_test
    failures := results.failures.map filter_test
    passes := results.passes.map filter_test }

end Cypress

/-! ## ArgumentSanitizer

Modelled from the spec: the `ArgumentSanitizer` component and the
`runRawArguments` operation it backs are described in §4.2 and §6 of the
specification but are absent from the source tree, which only contains the
`run_rspec` and `run_cypress` operations.  The definitions below follow the
words of the specification: empty list valid, more than 50 tokens rejected, every
token (flag or value) run through a metacharacter/length sanitizer, flags
checked against a fixed allowlist, value-taking flags consuming the next
token with per-flag value-shape rules, `--profile` optionally consuming a
following numeric non-flag token, and bare tokens validated as primary-kind
file paths. -/

namespace ArgumentSanitizer

/-- Modelled from the spec: the closed error variants of §4.2 / §7
("disallowed flag", "missing flag value", "dangerous value character",
"list/argument too long", "non-numeric required value", path errors). -/
inductive SanitizeError where
  | tooManyArguments
  | dangerousChar (c : Char)
  | tokenTooLong
  | disallowedFlag (flag : String)
  | missingValue (flag : String)
  | badValue (flag : String) (value : String)
  | badPath (message : String)
  deriving Repr, DecidableEq

/-- Modelled from the spec: the rejected shell metacharacters
`; & | $ \x60 ( ) < > \x22 \x27`. -/
def dangerousChars : List Char :=
  [';', '&', '|', '$', '\x60', '(', ')', '<', '>', '\x22', '\x27']

/-- Modelled from the spec: the per-token character/length sanitizer —
reject on any dangerous character (naming it), reject on length over 1000. -/
def sanitizeToken (token : String) : Except SanitizeError Unit :=
  match token.data.find? (fun c => dangerousChars.contains c) with
  | some c => .error (.dangerousChar c)
  | none =>
    if token.length > 1000 then .error .tokenTooLong else .ok ()

/-- Modelled from the spec: the flags with a mandatory value (output path,
require path, seed, format, tag, example, pattern, order, deprecation-out). -/
def valueFlags : List String :=
  ["--out", "-O", "--require", "-r", "--seed", "--format", "-f", "--tag", "-t",
   "--example", "-e", "--pattern", "-P", "--order", "--deprecation-out"]

/-- Modelled from the spec: the no-value flags (backtrace, color/no-color,
dry-run, fail-fast/no-fail-fast, warnings). -/
def noValueFlags : List String :=
  ["--backtrace", "-b", "--color", "--no-color", "--dry-run", "--fail-fast",
   "--no-fail-fast", "--warnings", "-w"]

/-- Modelled from the spec: the fixed flag allowlist (value flags, no-value
flags, and the optionally-valued profile flag). -/
def allowedFlags : List String := valueFlags ++ noValueFlags ++ ["--profile", "-p"]

/-- Modelled from the spec: the small allowed-directory set that an
output-path value must start with. -/
def allowedOutDirs : List String := ["tmp/", "log/", "spec/"]

/-- A value that parses as a non-negative integer: non-empty, digits only. -/
def isNumericValue (value : String) : Bool :=
  !value.isEmpty && value.data.all (fun c => c.isDigit)

/-- A path value beginning with the separator, i.e. an absolute path. -/
def isAbsolute (value : String) : Bool :=
  match value.data with
  | '/' :: _ => true
  | _ => false

/-- Modelled from the spec: per-flag value-shape rules — output-path values
have no traversal, are not absolute and start with an allowed directory;
require-path values are not absolute, have no traversal and end in the
source extension; seed values are non-negative integers. -/
def checkFlagValue (flag value : String) : Except SanitizeError Unit :=
  if flag = "--out" ∨ flag = "-O" then
    if strContains value "../" || isAbsolute value ||
        !allowedOutDirs.any (fun d => leadsWith d.data value.data) then
      .error (.badValue flag value)
    else .ok ()
  else if flag = "--require" ∨ flag = "-r" then
    if isAbsolute value || strContains value "../" || !strEndsWith value ".rb" then
      .error (.badValue flag value)
    else .ok ()
  else if flag = "--seed" then
    if !isNumericValue value then .error (.badValue flag value) else .ok ()
  else .ok ()

/-- A token beginning with `-` is a flag. -/
def isFlagToken (token : String) : Bool :=
  match token.data with
  | '-' :: _ => true
  | _ => false

/-- Modelled from the spec: the token walk with lookahead of §4.2.  Failing
checks are sequenced with `Except.bind`: the first violation wins. -/
def walkTokens : List String → Except SanitizeError Unit
  | [] => .ok ()
  | token :: rest =>
    (sanitizeToken token).bind fun _ =>
      if isFlagToken token then
        if !allowedFlags.contains token then .error (.disallowedFlag token)
        else if valueFlags.contains token then
          match rest with
          | [] => .error (.missingValue token)
          | value :: rest2 =>
            (sanitizeToken value).bind fun _ =>
              (checkFlagValue token value).bind fun _ =>
                walkTokens rest2
        else if token = "--profile" ∨ token = "-p" then
          match rest with
          | [] => .ok ()
          | value :: rest2 =>
            if isFlagToken value then walkTokens (value :: rest2)
            else
              (sanitizeToken value).bind fun _ =>
                if isNumericValue value then walkTokens rest2
                else .error (.badValue token value)
        else walkTokens rest
      else
        ((ParsedFilePath.validate_file_path token).mapError .badPath).bind fun _ =>
          walkTokens rest

/-- Modelled from the spec: `ArgumentSanitizer.validate` — empty list valid,
more than 50 tokens rejected, otherwise the token walk. -/
def validate (tokens : List String) : Except SanitizeError Unit :=
  if tokens.length > 50 then .error .tooManyArguments
  else walkTokens tokens

end ArgumentSanitizer

/-- A constant-failure deserializer, used to instantiate the pipeline
parameters at concrete inputs. -/
def failingParse : String → Except String CypressResults :=
  fun _ => .error "boom"

/-- A constant-failure serializer, used to instantiate the pipeline
parameters at concrete inputs. -/
def failingSerialize : CypressResults → Except String String :=
  fun _ => .error "boom"

/-! ## Helper lemmas -/

theorem check_line_numbers_ok_iff (l : List Int) :
    ParsedFilePath.check_line_numbers l = .ok () ↔ ∀ n ∈ l, 0 < n := by
  induction l with
  | nil => simp [ParsedFilePath.check_line_numbers]
  | cons n rest ih =>
    rw [ParsedFilePath.check_line_numbers]
    by_cases h : n ≤ 0
    · rw [if_pos h]
      constructor
      · intro hok; exact absurd hok (by simp)
      · intro hall; exact absurd (hall n (by simp)) (by omega)
    · rw [if_neg h, ih]
      constructor
      · intro hall m hm
        rcases List.mem_cons.mp hm with rfl | hm2
        · omega
        · exact hall m hm2
      · intro hall m hm; exact hall m (List.mem_cons_of_mem _ hm)

theorem check_line_numbers_find (l : List Int) (n : Int)
    (h : l.find? (fun m => m ≤ 0) = some n) :
    ParsedFilePath.check_line_numbers l =
      .error ("Line numbers must be positive integers, got: " ++ toString n) := by
  induction l with
  | nil => simp [List.find?] at h
  | cons m rest ih =>
    rw [ParsedFilePath.check_line_numbers]
    by_cases hm : m ≤ 0
    · rw [List.find?_cons_of_pos _ (by simpa using hm)] at h
      rw [if_pos hm]
      injection h with h
      rw [h]
    · rw [List.find?_cons_of_neg _ (by simpa using hm)] at h
      rw [if_neg hm]
      exact ih h

theorem from_args_ok_shape (file : String) (nums : List Int) (pf : ParsedFilePath)
    (h : ParsedFilePath.from_args file nums = .ok pf) :
    pf = { file_path := file, line_numbers := nums } := by
  rw [ParsedFilePath.from_args] at h
  by_cases he : file = ""
  · rw [if_pos he] at h; exact absurd h (by simp)
  · rw [if_neg he] at h
    cases hv : ParsedFilePath.validate_file_path file with
    | error e => rw [hv] at h; exact absurd h (by simp)
    | ok u =>
      cases u
      rw [hv] at h
      cases hc : ParsedFilePath.check_line_numbers nums with
      | error e => rw [hc] at h; exact absurd h (by simp)
      | ok u2 =>
        cases u2
        rw [hc] at h
        injection h with h
        exact h.symm

/-! ## Claim theorems -/

/-- C3: RSpec path validation applies its rules in a fixed priority order,
first violation winning: NUL or line feed gives the invalid-characters
error; otherwise the substring `"../"` on the raw path gives the traversal
error; otherwise, on the path with one leading `"./"` stripped, a missing
`"_spec.rb"` suffix gives the wrong-kind error; otherwise the bare suffix
gives the malformed error; otherwise validation succeeds.  Traversal takes
priority over the suffix checks but not over the character check. -/
theorem rspec_validation_priority_order :
    (∀ path : String,
      (strContainsChar path '\x00' || strContainsChar path '\n') = true →
      ParsedFilePath.validate_file_path path =
        .error "Invalid characters in file path") ∧
    (∀ path : String,
      (strContainsChar path '\x00' || strContainsChar path '\n') = false →
      strContains path "../" = true →
      ParsedFilePath.validate_file_path path =
        .error "Path traversal not allowed") ∧
    (∀ path : String,
      (strContainsChar path '\x00' || strContainsChar path '\n') = false →
      strContains path "../" = false →
      strEndsWith (stripDotSlash path) "_spec.rb" = false →
      ParsedFilePath.validate_file_path path =
        .error "File must be an RSpec test file (*_spec.rb)") ∧
    (∀ path : String,
      (strContainsChar path '\x00' || strContainsChar path '\n') = false →
      strContains path "../" = false →
      strEndsWith (stripDotSlash path) "_spec.rb" = true →
      stripDotSlash path = "_spec.rb" →
      ParsedFilePath.validate_file_path path =
        .error "Invalid file path format") ∧
    (∀ path : String,
      (strContainsChar path '\x00' || strContainsChar path '\n') = false →
      strContains path "../" = false →
      strEndsWith (stripDotSlash path) "_spec.rb" = true →
      stripDotSlash path ≠ "_spec.rb" →
      ParsedFilePath.validate_file_path path = .ok ()) := by
  refine ⟨?_, ?_, ?_, ?_, ?_⟩
  · intro path h1
    simp [ParsedFilePath.validate_file_path, h1]
  · intro path h1 h2
    simp [ParsedFilePath.validate_file_path, h1, h2]
  · intro path h1 h2 h3
    simp [ParsedFilePath.validate_file_path, h1, h2, h3]
  · intro path h1 h2 h3 h4
    simp [ParsedFilePath.validate_file_path, h1, h2, h3, h4]
    decide
  · intro path h1 h2 h3 h4
    simp [ParsedFilePath.validate_file_path, h1, h2, h3, h4]

/-- Witness for C3: each of the five priority branches reached at a
concrete path — a line feed wins over a traversal and suffix violation, a
traversal wins over a suffix violation, a wrong suffix, the bare suffix
behind `"./"`, and a valid path. -/
theorem rspec_validation_priority_order_witness :
    ParsedFilePath.validate_file_path "..\n/a.rb" =
      .error "Invalid characters in file path" ∧
    ParsedFilePath.validate_file_path "../a.rb" =
      .error "Path traversal not allowed" ∧
    ParsedFilePath.validate_file_path "spec/a.rb" =
      .error "File must be an RSpec test file (*_spec.rb)" ∧
    ParsedFilePath.validate_file_path "./_spec.rb" =
      .error "Invalid file path format" ∧
    ParsedFilePath.validate_file_path "spec/a_spec.rb" = .ok () :=
  ⟨rspec_validation_priority_order.1 "..\n/a.rb" (by decide),
   rspec_validation_priority_order.2.1 "../a.rb" (by decide) (by decide),
   rspec_validation_priority_order.2.2.1 "spec/a.rb" (by decide) (by decide)
     (by decide),
   rspec_validation_priority_order.2.2.2.1 "./_spec.rb" (by decide) (by decide)
     (by decide) (by decide),
   rspec_validation_priority_order.2.2.2.2 "spec/a_spec.rb" (by decide)
     (by decide) (by decide) (by decide)⟩

/-- C5: for a file path passing RSpec path validation, `from_args` succeeds
exactly when every supplied line number is positive, and on failure the
error message carries the value of the first non-positive element. -/
theorem line_number_validation (file : String) (nums : List Int)
    (hv : ParsedFilePath.validate_file_path file = .ok ()) :
    ((∃ pf, ParsedFilePath.from_args file nums = .ok pf) ↔ ∀ n ∈ nums, 0 < n) ∧
    (∀ n, nums.find? (fun m => m ≤ 0) = some n →
      ParsedFilePath.from_args file nums =
        .error ("Line numbers must be positive integers, got: " ++ toString n)) := by
  have hne : ¬ file = "" := by
    intro he; subst he; exact absurd hv (by decide)
  constructor
  · rw [← check_line_numbers_ok_iff]
    constructor
    · rintro ⟨pf, hpf⟩
      rw [ParsedFilePath.from_args, if_neg hne, hv] at hpf
      cases hc : ParsedFilePath.check_line_numbers nums with
      | error e => rw [hc] at hpf; exact absurd hpf (by simp)
      | ok u => cases u; rfl
    · intro hok
      exact ⟨_, by rw [ParsedFilePath.from_args, if_neg hne, hv, hok]⟩
  · intro n hn
    rw [ParsedFilePath.from_args, if_neg hne, hv, check_line_numbers_find nums n hn]

/-- Witness for C5: on the validated path `"spec/a_spec.rb"`, the sequence
`[3, 0, 2]` is rejected with the error naming its first non-positive
element `0`. -/
theorem line_number_validation_witness :
    ParsedFilePath.from_args "spec/a_spec.rb" [3, 0, 2] =
      .error "Line numbers must be positive integers, got: 0" :=
  (line_number_validation "spec/a_spec.rb" [3, 0, 2] (by decide)).2 0 (by decide)

/-- C6: the trailing argument `run_rspec` appends to the configured command
is the file path alone when the line-number list is empty, and otherwise the
path followed by the line numbers joined with colons in input order; in
particular the target `"spec/a_spec.rb"` with lines `[37, 87]` yields
exactly `"spec/a_spec.rb:37:87"`. -/
theorem rspec_trailing_argument :
    (∀ (file : String) (nums : List Int) (pf : ParsedFilePath),
      ParsedFilePath.from_args file nums = .ok pf →
      TestRunner.build_rspec_arg pf =
        if nums.isEmpty then file
        else file ++ ":" ++ String.intercalate ":" (nums.map (fun n => toString n))) ∧
    (∃ pf, ParsedFilePath.from_args "spec/a_spec.rb" [37, 87] = .ok pf ∧
      TestRunner.build_rspec_arg pf = "spec/a_spec.rb:37:87") := by
  constructor
  · intro file nums pf h
    rw [from_args_ok_shape file nums pf h]
    rfl
  · exact ⟨{ file_path := "spec/a_spec.rb", line_numbers := [37, 87] },
      by decide, by decide⟩

/-- Witness for C6: the general clause instantiated at the validated target
`"spec/a_spec.rb"` with lines `[37, 87]`. -/
theorem rspec_trailing_argument_witness :
    TestRunner.build_rspec_arg { file_path := "spec/a_spec.rb", line_numbers := [37, 87] } =
      if ([37, 87] : List Int).isEmpty then "spec/a_spec.rb"
      else "spec/a_spec.rb" ++ ":" ++
        String.intercalate ":" (([37, 87] : List Int).map (fun n => toString n)) :=
  rspec_trailing_argument.1 "spec/a_spec.rb" [37, 87]
    { file_path := "spec/a_spec.rb", line_numbers := [37, 87] } (by decide)

theorem braceSuffix_eq (l : List Char) :
    braceSuffix l =
      if l.contains '\x7b' then some (l.dropWhile (fun c => c != '\x7b'))
      else none := by
  induction l with
  | nil => rfl
  | cons c cs ih =>
    rw [braceSuffix]
    by_cases hc : c = '\x7b'
    · subst hc
      simp [List.dropWhile_cons]
    · rw [if_neg hc, ih]
      have h2 : (c :: cs).contains '\x7b' = cs.contains '\x7b' := by
        simp [List.contains_cons, hc]
        exact fun h => absurd h.symm hc
      have h3 : (c :: cs).dropWhile (fun c => c != '\x7b') =
          cs.dropWhile (fun c => c != '\x7b') := by
        simp [List.dropWhile_cons, hc]
      rw [h2, h3]

/-- C7: JSON extraction returns the suffix of the input starting at the
first opening brace when one exists — `List.dropWhile` of the characters
before the first `'\x7b'` — and fails with the no-json-found error exactly
when the input holds no opening brace; in particular the noisy example from
the spec extracts its embedded JSON object. -/
theorem extract_is_first_brace_suffix :
    (∀ s : String, s.data.contains '\x7b' = true →
      TestRunner.extract_json_from_cypress_output s =
        .ok (String.mk (s.data.dropWhile (fun c => c != '\x7b')))) ∧
    (∀ s : String, s.data.contains '\x7b' = false →
      TestRunner.extract_json_from_cypress_output s =
        .error "No JSON found in Cypress output") ∧
    TestRunner.extract_json_from_cypress_output "noise\n\x7b\x22a\x22:1\x7d" =
      .ok "\x7b\x22a\x22:1\x7d" := by
  refine ⟨?_, ?_, by decide⟩
  · intro s h
    have hm : '\x7b' ∈ s.data := by simpa using h
    simp [TestRunner.extract_json_from_cypress_output, braceSuffix_eq, hm]
  · intro s h
    have hm : '\x7b' ∉ s.data := by simpa using h
    simp [TestRunner.extract_json_from_cypress_output, braceSuffix_eq, hm]

/-- Witness for C7: both clauses at concrete inputs — an input with a brace
extracts the brace-initial suffix, an input without one fails. -/
theorem extract_is_first_brace_suffix_witness :
    TestRunner.extract_json_from_cypress_output "log \x7bok\x7d" =
      .ok (String.mk (("log \x7bok\x7d" : String).data.dropWhile (fun c => c != '\x7b'))) ∧
    TestRunner.extract_json_from_cypress_output "no json here" =
      .error "No JSON found in Cypress output" :=
  ⟨extract_is_first_brace_suffix.1 "log \x7bok\x7d" (by decide),
   extract_is_first_brace_suffix.2.1 "no json here" (by decide)⟩

theorem filter_test_eq_id (t : CypressTest) : TestRunner.filter_test t = t := by
  cases t with
  | mk title full_title file duration current_retry err => cases err <;> rfl

theorem cypress_filter_test_eq_id (t : CypressTest) : Cypress.filter_test t = t := by
  cases t with
  | mk title full_title file duration current_retry err => cases err <;> rfl

/-- C8: the filter stage is the identity on `CypressResults` — it preserves
the stats, every field of every test record (including the error and its
code frame), and the order and length of the four record sequences; this
holds for the `filter_cypress_results` of the pipeline and for the
`filter_results` of the standalone module alike. -/
theorem filter_stage_identity :
    (∀ results : CypressResults, TestRunner.filter_cypress_results results = results) ∧
    (∀ results : CypressResults, Cypress.filter_results results = results) := by
  constructor
  · intro r
    cases r with
    | mk stats tests pending failures passes =>
      have h : TestRunner.filter_test = id := funext filter_test_eq_id
      simp [TestRunner.filter_cypress_results, h]
  · intro r
    cases r with
    | mk stats tests pending failures passes =>
      have h : Cypress.filter_test = id := funext cypress_filter_test_eq_id
      simp [Cypress.filter_results, h]

/-- C9: the free functions of the standalone `cypress` module are
extensionally equal to the corresponding private functions of `TestRunner` —
the module is an unwired duplicate of the pipeline.  The shared foreign
deserializer is the common parameter `from_str`. -/
theorem cypress_module_is_duplicate :
    (∀ output : String,
      Cypress.extract_json_from_output output =
        TestRunner.extract_json_from_cypress_output output) ∧
    (∀ (from_str : String → Except String CypressResults) (json_str : String),
      Cypress.parse_results from_str json_str =
        TestRunner.parse_cypress_results from_str json_str) ∧
    (∀ results : CypressResults,
      Cypress.filter_results results = TestRunner.filter_cypress_results results) :=
  ⟨fun _ => rfl, fun _ _ => rfl, fun _ => rfl⟩

/-- C4: in `run_cypress`, a failed pipeline stage never produces a failure
outcome — for every stage result the outcome is a success — and each failing
stage (extract, parse, serialize) yields the success text that names the
failed stage and embeds the captured stdout and stderr verbatim with the
exit code unchanged. -/
theorem cypress_stage_failure_degrades (file_path : String) (status : Int)
    (stdout stderr : String)
    (from_str : String → Except String CypressResults)
    (to_string_pretty : CypressResults → Except String String) :
    (∀ message, TestRunner.run_cypress_post file_path status stdout stderr
        from_str to_string_pretty ≠ .failure message) ∧
    (∀ e, TestRunner.extract_json_from_cypress_output stdout = .error e →
      TestRunner.run_cypress_post file_path status stdout stderr from_str
          to_string_pretty =
        .success ("Test Results for: " ++ file_path ++
          " (JSON extraction failed: " ++ e ++ ")\nExit Code: " ++
          toString status ++ "\n\nOutput:\n" ++ stdout ++ "\n\nErrors:\n" ++
          stderr)) ∧
    (∀ json_str e,
      TestRunner.extract_json_from_cypress_output stdout = .ok json_str →
      TestRunner.parse_cypress_results from_str json_str = .error e →
      TestRunner.run_cypress_post file_path status stdout stderr from_str
          to_string_pretty =
        .success ("Test Results for: " ++ file_path ++
          " (JSON parsing failed: " ++ e ++ ")\nExit Code: " ++
          toString status ++ "\n\nOutput:\n" ++ stdout ++ "\n\nErrors:\n" ++
          stderr)) ∧
    (∀ json_str results e,
      TestRunner.extract_json_from_cypress_output stdout = .ok json_str →
      TestRunner.parse_cypress_results from_str json_str = .ok results →
      to_string_pretty (TestRunner.filter_cypress_results results) = .error e →
      TestRunner.run_cypress_post file_path status stdout stderr from_str
          to_string_pretty =
        .success ("Test Results for: " ++ file_path ++
          " (JSON serialization failed: " ++ e ++ ")\nExit Code: " ++
          toString status ++ "\n\nOutput:\n" ++ stdout ++ "\n\nErrors:\n" ++
          stderr)) := by
  refine ⟨?_, ?_, ?_, ?_⟩
  · intro message
    cases hx : TestRunner.extract_json_from_cypress_output stdout with
    | error e => simp [TestRunner.run_cypress_post, hx]
    | ok j =>
      cases hp : TestRunner.parse_cypress_results from_str j with
      | error e => simp [TestRunner.run_cypress_post, hx, hp]
      | ok r =>
        cases hs : to_string_pretty (TestRunner.filter_cypress_results r) with
        | error e => simp [TestRunner.run_cypress_post, hx, hp, hs]
        | ok c => simp [TestRunner.run_cypress_post, hx, hp, hs]
  · intro e hx
    simp [TestRunner.run_cypress_post, hx]
  · intro j e hx hp
    simp [TestRunner.run_cypress_post, hx, hp]
  · intro j r e hx hp hs
    simp [TestRunner.run_cypress_post, hx, hp, hs]

/-- Witness for C4: extraction fails on stdout `"no json"`, and the outcome
is the degraded success carrying that stdout, the stderr and exit code 1. -/
theorem cypress_stage_failure_degrades_witness :
    TestRunner.run_cypress_post "cypress/e2e/a.cy.js" 1 "no json" "errtext"
        failingParse failingSerialize =
      .success ("Test Results for: " ++ "cypress/e2e/a.cy.js" ++
        " (JSON extraction failed: " ++ "No JSON found in Cypress output" ++
        ")\nExit Code: " ++ toString (1 : Int) ++ "\n\nOutput:\n" ++
        "no json" ++ "\n\nErrors:\n" ++ "errtext") :=
  (cypress_stage_failure_degrades "cypress/e2e/a.cy.js" 1 "no json" "errtext"
    failingParse failingSerialize).2.1 "No JSON found in Cypress output"
    (by decide)

theorem splitWsAux_ne_nil (l : List Char) :
    ∀ acc : List Char, (∃ c ∈ l, isRustWhitespace c = false) ∨ acc ≠ [] →
      splitWsAux l acc ≠ [] := by
  induction l with
  | nil =>
    intro acc h
    rcases h with ⟨c, hc, _⟩ | hacc
    · cases hc
    · rw [splitWsAux]
      simp [hacc]
  | cons c cs ih =>
    intro acc h
    rw [splitWsAux]
    by_cases hw : isRustWhitespace c = true
    · rw [if_pos hw]
      by_cases hacc : acc.isEmpty
      · rw [if_pos hacc]
        apply ih []
        left
        rcases h with ⟨d, hd, hdw⟩ | hne
        · rcases List.mem_cons.mp hd with rfl | hd2
          · rw [hw] at hdw; cases hdw
          · exact ⟨d, hd2, hdw⟩
        · exact absurd (List.isEmpty_iff.mp hacc) hne
      · rw [if_neg hacc]
        simp
    · rw [if_neg hw]
      apply ih (c :: acc)
      right
      simp

theorem splitWsAux_all_ws (l : List Char)
    (h : ∀ c ∈ l, isRustWhitespace c = true) : splitWsAux l [] = [] := by
  induction l with
  | nil => rfl
  | cons c cs ih =>
    rw [splitWsAux, if_pos (h c (by simp))]
    simp only [List.isEmpty_nil, if_true]
    exact ih fun d hd => h d (List.mem_cons_of_mem _ hd)

/-- C10: `run_rspec` indexes the first whitespace-split token of the
configured command without a guard — any configured command with at least
one character Rust does not treat as whitespace safely yields a program
token, while every configured command that is empty or all whitespace (by
the Unicode White_Space property Rust splits on), called with a validated
file target, runs past validation into the out-of-bounds indexing (the
`Except.ok none` panic marker of `run_rspec_build`) instead of any
validation or operational error. -/
theorem rspec_command_unguarded_indexing :
    (∀ (cmd file : String) (nums : List Int) (r : Option (String × List String)),
      (∃ c ∈ cmd.data, isRustWhitespace c = false) →
      TestRunner.run_rspec_build cmd file nums = .ok r → r ≠ none) ∧
    (∀ (cmd file : String) (nums : List Int) (pf : ParsedFilePath),
      (∀ c ∈ cmd.data, isRustWhitespace c = true) →
      ParsedFilePath.from_args file nums = .ok pf →
      TestRunner.run_rspec_build cmd file nums = .ok none) := by
  constructor
  · intro cmd file nums r hc hr
    rw [TestRunner.run_rspec_build] at hr
    cases hf : ParsedFilePath.from_args file nums with
    | error e => rw [hf] at hr; exact absurd hr (by simp)
    | ok pf =>
      rw [hf] at hr
      cases hs : splitWhitespace cmd with
      | nil => exact absurd hs (splitWsAux_ne_nil cmd.data [] (Or.inl hc))
      | cons p rest =>
        rw [hs] at hr
        injection hr with hr
        rw [← hr]
        simp
  · intro cmd file nums pf hc hf
    rw [TestRunner.run_rspec_build, hf]
    have hs : splitWhitespace cmd = [] := splitWsAux_all_ws cmd.data hc
    rw [hs]

/-- Witness for C10: the one-token command `"rspec"` with a valid file
target builds a program and argument vector, not the panic marker, while
the form-feed-and-spaces command `" \x0C "` — whitespace to Rust — reaches
the panic marker on the same valid target. -/
theorem rspec_command_unguarded_indexing_witness :
    TestRunner.run_rspec_build "rspec" "spec/a_spec.rb" [] =
      .ok (some ("rspec", ["spec/a_spec.rb"])) ∧
    (some ("rspec", ["spec/a_spec.rb"]) : Option (String × List String)) ≠ none ∧
    TestRunner.run_rspec_build " \x0C " "spec/a_spec.rb" [] = .ok none :=
  ⟨by decide,
   rspec_command_unguarded_indexing.1 "rspec" "spec/a_spec.rb" []
     (some ("rspec", ["spec/a_spec.rb"]))
     ⟨'r', by decide, by decide⟩ (by decide),
   rspec_command_unguarded_indexing.2 " \x0C " "spec/a_spec.rb" []
     { file_path := "spec/a_spec.rb", line_numbers := [] }
     (by decide) (by decide)⟩

/-- C1 counterexample: the Cypress path validator accepts the path
`"a;b.cy.js"`, which contains the shell metacharacter `;` — so it is not
the case that every accepted path is free of the shell metacharacters. -/
theorem cypress_accepts_metachar_path :
    ParsedFilePath.validate_cypress_file_path "a;b.cy.js" = .ok () ∧
    strContainsChar "a;b.cy.js" ';' = true :=
  ⟨by decide, by decide⟩

/-- C1 (amended): a path accepted by the Cypress path validator is
guaranteed free only of NUL, line feed, and the traversal substring
`"../"`; the validator does not reject the shell metacharacters, so they
can reach the single `sh -c` command string of `run_cypress`. -/
theorem cypress_validation_guarantees (path : String)
    (h : ParsedFilePath.validate_cypress_file_path path = .ok ()) :
    strContainsChar path '\x00' = false ∧ strContainsChar path '\n' = false ∧
    strContains path "../" = false := by
  rw [ParsedFilePath.validate_cypress_file_path] at h
  split at h
  · exact absurd h (by simp)
  · next h1 =>
    split at h
    · exact absurd h (by simp)
    · next h2 =>
      simp only [Bool.or_eq_true, not_or, Bool.not_eq_true] at h1 h2
      exact ⟨h1.1, h1.2, h2⟩

/-- Witness for C1 (amended): the accepted path `"cypress/e2e/a.cy.js"` is
free of NUL, line feed and the traversal substring. -/
theorem cypress_validation_guarantees_witness :
    ParsedFilePath.validate_cypress_file_path "cypress/e2e/a.cy.js" = .ok () ∧
    (strContainsChar "cypress/e2e/a.cy.js" '\x00' = false ∧
     strContainsChar "cypress/e2e/a.cy.js" '\n' = false ∧
     strContains "cypress/e2e/a.cy.js" "../" = false) :=
  ⟨by decide, cypress_validation_guarantees "cypress/e2e/a.cy.js" (by decide)⟩

theorem walkTokens_ok_clean :
    ∀ (n : Nat) (tokens : List String), tokens.length ≤ n →
      ArgumentSanitizer.walkTokens tokens = .ok () →
      ∀ t ∈ tokens, ArgumentSanitizer.sanitizeToken t = .ok () := by
  intro n
  induction n with
  | zero =>
    intro tokens hlen _ t ht
    cases tokens with
    | nil => cases ht
    | cons a l => simp at hlen
  | succ n ih =>
    intro tokens hlen hw t ht
    cases tokens with
    | nil => cases ht
    | cons token rest =>
      rw [ArgumentSanitizer.walkTokens.eq_def] at hw
      simp only [] at hw
      cases hst : ArgumentSanitizer.sanitizeToken token with
      | error e => rw [hst] at hw; exact absurd hw (by simp [Except.bind])
      | ok u =>
        cases u
        rw [hst] at hw
        simp only [Except.bind] at hw
        rcases List.mem_cons.mp ht with rfl | ht2
        · exact hst
        · by_cases hflag : ArgumentSanitizer.isFlagToken token = true
          · rw [if_pos hflag] at hw
            by_cases hal : (!ArgumentSanitizer.allowedFlags.contains token) = true
            · rw [if_pos hal] at hw; exact absurd hw (by simp)
            · rw [if_neg hal] at hw
              by_cases hvf : ArgumentSanitizer.valueFlags.contains token = true
              · rw [if_pos hvf] at hw
                cases rest with
                | nil => cases ht2
                | cons value rest2 =>
                  simp only [] at hw
                  cases hsv : ArgumentSanitizer.sanitizeToken value with
                  | error e => rw [hsv] at hw; exact absurd hw (by simp [Except.bind])
                  | ok u2 =>
                    cases u2
                    rw [hsv] at hw
                    simp only [Except.bind] at hw
                    cases hcv : ArgumentSanitizer.checkFlagValue token value with
                    | error e => rw [hcv] at hw; exact absurd hw (by simp [Except.bind])
                    | ok u3 =>
                      cases u3
                      rw [hcv] at hw
                      simp only [Except.bind] at hw
                      rcases List.mem_cons.mp ht2 with rfl | ht3
                      · exact hsv
                      · exact ih rest2 (by simp at hlen; omega) hw t ht3
              · rw [if_neg hvf] at hw
                by_cases hprof : (token = "--profile" ∨ token = "-p")
                · rw [if_pos hprof] at hw
                  cases rest with
                  | nil => cases ht2
                  | cons value rest2 =>
                    simp only [] at hw
                    by_cases hvfl : ArgumentSanitizer.isFlagToken value = true
                    · rw [if_pos hvfl] at hw
                      exact ih (value :: rest2) (by simp at hlen ⊢; omega) hw t ht2
                    · rw [if_neg hvfl] at hw
                      cases hsv : ArgumentSanitizer.sanitizeToken value with
                      | error e => rw [hsv] at hw; exact absurd hw (by simp [Except.bind])
                      | ok u2 =>
                        cases u2
                        rw [hsv] at hw
                        simp only [Except.bind] at hw
                        by_cases hnum : ArgumentSanitizer.isNumericValue value = true
                        · rw [if_pos hnum] at hw
                          rcases List.mem_cons.mp ht2 with rfl | ht3
                          · exact hsv
                          · exact ih rest2 (by simp at hlen; omega) hw t ht3
                        · rw [if_neg hnum] at hw; exact absurd hw (by simp)
                · rw [if_neg hprof] at hw
                  exact ih rest (by simp at hlen; omega) hw t ht2
          · rw [if_neg hflag] at hw
            cases hvp : ParsedFilePath.validate_file_path token with
            | error e =>
              rw [hvp] at hw
              exact absurd hw (by simp [Except.mapError, Except.bind])
            | ok u2 =>
              cases u2
              rw [hvp] at hw
              simp only [Except.mapError, Except.bind] at hw
              exact ih rest (by simp at hlen; omega) hw t ht2

theorem sanitizeToken_ok_clean (t : String)
    (h : ArgumentSanitizer.sanitizeToken t = .ok ()) :
    t.data.all (fun c => !ArgumentSanitizer.dangerousChars.contains c) = true := by
  rw [ArgumentSanitizer.sanitizeToken.eq_def] at h
  split at h
  · exact absurd h (by simp)
  · next hf =>
    rw [List.all_eq_true]
    intro c hc
    simpa using List.find?_eq_none.mp hf c hc

/-- C2: the spec-modelled `ArgumentSanitizer` behind `runRawArguments`
rejects every token list in which any token carries a shell metacharacter —
equivalently, a list it validates has every character of every token outside
the dangerous set — and on the example given in the spec it fails naming `;` as
the dangerous character. -/
theorem raw_argument_sanitizer_rejects_metachars :
    (∀ (tokens : List String) (t : String),
      ArgumentSanitizer.validate tokens = .ok () → t ∈ tokens →
      t.data.all (fun c => !ArgumentSanitizer.dangerousChars.contains c) = true) ∧
    ArgumentSanitizer.validate ["--format", "json; rm -rf /"] =
      .error (.dangerousChar ';') := by
  constructor
  · intro tokens t hv ht
    have hw : ArgumentSanitizer.walkTokens tokens = .ok () := by
      rw [ArgumentSanitizer.validate] at hv
      split at hv
      · exact absurd hv (by simp)
      · exact hv
    exact sanitizeToken_ok_clean t
      (walkTokens_ok_clean tokens.length tokens le_rfl hw t ht)
  · decide

/-- Witness for C2: the clean token list `["--color"]` validates, and its
token is free of every dangerous character. -/
theorem raw_argument_sanitizer_rejects_metachars_witness :
    ArgumentSanitizer.validate ["--color"] = .ok () ∧
    ("--color" : String).data.all
      (fun c => !ArgumentSanitizer.dangerousChars.contains c) = true :=
  ⟨by decide, raw_argument_sanitizer_rejects_metachars.1 ["--color"] "--color"
    (by decide) (by decide)⟩

end TRMcp
